import Mathlib

/-!
Verification of the media resolution and naming subsystem of tg_download_bot
(src/main.rs), shallowly embedded in Lean 4.

The embedding covers:
- the Unix semantics of Rust's `std::path::Path::file_name`, `file_stem` and
  `extension` as used by the source;
- `get_filename_and_extension` (main.rs lines 227-256), the filename resolver;
- the media-group sequencer embedded from `download_and_save_file`
  (main.rs lines 187-201): a registry map from group id to `MediaGroupData`,
  advanced under a mutex, modelled as sequential state passing (the mutex makes
  every read-modify-write one atomic step, so every interleaving is equivalent
  to a sequence of calls);
- the media-kind dispatch of `handle_media_message` (lines 125-175);
- the I/O skeleton of `download_and_save_file` (lines 203-224), with the
  outcomes of the external filesystem/network calls supplied by an oracle
  record `TransferEnv`.

The `page_number` field is a Rust `u32`: increments are taken modulo 2^32
(release-mode wrapping arithmetic).
-/

namespace TgBot

/-! ### Rust `std::path` model (Unix) -/

/-- Split a character list at every `/`, keeping empty pieces (the semantics
of splitting a string on the one-character separator). -/
def splitOnSlash : List Char → List (List Char)
  | [] => [[]]
  | c :: rest =>
    match splitOnSlash rest with
    | [] => [[c]]
    | h :: t => if c = '/' then [] :: h :: t else (c :: h) :: t

/-- Components of a path string as Rust `Path::components` yields them on Unix:
split on the separator, drop empty segments and `.` segments. -/
def pathSegments (s : String) : List String :=
  ((splitOnSlash s.data).map (fun l => (⟨l⟩ : String))).filter
    (fun seg => seg != "" && seg != ".")

/-- Rust `Path::file_name`: the last normal component; `none` when the path is
empty, is a root, or terminates in `..`. -/
def rustFileName (s : String) : Option String :=
  match (pathSegments s).getLast? with
  | none => none
  | some l => if l = ".." then none else some l

/-- Index of the last `.` in a list of characters, if any. -/
def lastDotPos (l : List Char) : Option Nat :=
  match l.reverse.findIdx? (fun c => c == '.') with
  | none => none
  | some k => some (l.length - 1 - k)

/-- Rust `path::split_file_at_dot` on a file name: split at the last `.`
occurring at index at least 1 (a leading dot does not separate an extension,
and `..` is special-cased to have no extension). -/
def splitAtLastDot (n : String) : String × Option String :=
  if n = ".." then (n, none)
  else
    match lastDotPos n.data with
    | some i =>
        if 1 ≤ i then (⟨n.data.take i⟩, some ⟨n.data.drop (i + 1)⟩)
        else (n, none)
    | none => (n, none)

/-- The stem of a file-name component. -/
def stemOfFileName (n : String) : String := (splitAtLastDot n).1

/-- The extension of a file-name component, if any. -/
def extOfFileName (n : String) : Option String := (splitAtLastDot n).2

/-- Rust `Path::file_stem` on a path string. -/
def rustFileStem (s : String) : Option String :=
  (rustFileName s).map stemOfFileName

/-- Rust `Path::extension` on a path string. -/
def rustExtension (s : String) : Option String :=
  (rustFileName s).bind extOfFileName

/-- Rust `Path::is_absolute` on Unix: the path starts with the separator. -/
def rustIsAbsolute (p : String) : Bool :=
  match p.data with
  | [] => false
  | c :: _ => c = '/'

/-! ### Data model -/

/-- The fields of teloxide's `FileMeta` that the source reads. -/
structure FileMeta where
  id : String
  unique_id : String
  size : Nat
deriving DecidableEq

/-- A photo resolution variant (`PhotoSize`): the source only reads its
`file` metadata. -/
structure PhotoSize where
  file : FileMeta
deriving DecidableEq

/-- Per-group registry entry (main.rs lines 45-49). `page_number` is a `u32`;
its values stay below `2^32`. -/
structure MediaGroupData where
  page_number : Nat
  title : String
deriving DecidableEq

/-- The modulus of Rust `u32` arithmetic. -/
def u32Mod : Nat := 2 ^ 32

/-! ### Filename resolver (`get_filename_and_extension`, lines 227-256) -/

/-- The first part of the filename body (lines 238-245): when group data is
present it is the title marker, otherwise the bracketed stem with
`stem = file_name.unwrap_or("")` — the full passed string, verbatim. -/
def body_pre (file_name : Option String)
    (media_group_data : Option MediaGroupData) : String :=
  match media_group_data with
  | some x => "title:[" ++ x.title ++ "]"
  | none => "[" ++ file_name.getD "" ++ "]"

/-- The page suffix of the filename body (lines 246-247). -/
def body_page (media_group_data : Option MediaGroupData) : String :=
  match media_group_data with
  | some data => "\x7bpage:" ++ toString data.page_number ++ "\x7d"
  | none => ""

/-- The body of the filename before sanitization (line 250):
`format!("{prefix}_{unique_id}{page_part}")`. -/
def raw_body (unique_id : String) (file_name : Option String)
    (media_group_data : Option MediaGroupData) : String :=
  body_pre file_name media_group_data ++ "_" ++ unique_id
    ++ body_page media_group_data

/-- The character substitution done by the sanitization step. -/
def deslash (c : Char) : Char := if c = '/' then '\\' else c

/-- `str::replace("/", "\\")` for the single-character pattern `/`:
each `/` character is replaced by `\` (line 253). -/
def replaceSlashes (s : String) : String :=
  ⟨s.data.map deslash⟩

/-- The resolver (lines 227-256): the extension is the `Path::extension` of
`file_name` when present, else `default_ext`; the body is `raw_body`
sanitized by `replaceSlashes`. -/
def get_filename_and_extension (file_meta : FileMeta) (file_name : Option String)
    (default_ext : String) (media_group_data : Option MediaGroupData) :
    String × String :=
  (replaceSlashes (raw_body file_meta.unique_id file_name media_group_data),
   (file_name.bind rustExtension).getD default_ext)

/-- The resolver under the spec's signature: `handle_media_message` merges the
caption and the original-filename hint into the single `file_name` argument,
with the caption preferred (lines 148-151 and 163-166; the photo branch passes
the caption alone). -/
def resolve (unique_id : String) (file_name_hint caption : Option String)
    (default_ext : String) (grp : Option MediaGroupData) : String × String :=
  get_filename_and_extension
    { id := "", unique_id := unique_id, size := 0 }
    (caption.or file_name_hint) default_ext grp

/-! ### Media-group sequencer (lines 187-201) -/

/-- The title stored when a group entry is created (lines 191-195):
the `file_stem` of the passed file name, else the group id. -/
def titleOf (media_group_id : String) (file_name : Option String) : String :=
  ((file_name.bind rustFileStem)).getD media_group_id

/-- The registry `media_group_page_numbers`: group id to entry. -/
def GroupMap : Type := String → Option MediaGroupData

/-- One sequencer call (lines 187-198): under the registry mutex,
`entry(id).or_insert(MediaGroupData page_number 0, title ...)`, then
`page_number += 1` (u32 wrapping), returning a clone of the post-increment
entry together with the updated registry. -/
def advance (m : GroupMap) (media_group_id : String) (file_name : Option String) :
    MediaGroupData × GroupMap :=
  let entry := (m media_group_id).getD
    { page_number := 0, title := titleOf media_group_id file_name }
  let entry2 : MediaGroupData :=
    { entry with page_number := (entry.page_number + 1) % u32Mod }
  (entry2, fun k => if k = media_group_id then some entry2 else m k)

/-- A sequence of calls for one group id; returns the list of returned
page numbers and the final registry. -/
def advanceList (m : GroupMap) (gid : String) (fbs : List (Option String)) :
    List Nat × GroupMap :=
  match fbs with
  | [] => ([], m)
  | fb :: rest =>
    let r := advance m gid fb
    let rr := advanceList r.2 gid rest
    (r.1.page_number :: rr.1, rr.2)

/-- A sequence of calls for arbitrary group ids (registry only). -/
def advanceCalls (m : GroupMap) (calls : List (String × Option String)) : GroupMap :=
  match calls with
  | [] => m
  | c :: rest => advanceCalls (advance m c.1 c.2).2 rest

/-- The empty registry (process start). -/
def emptyGroupMap : GroupMap := fun _ => none

/-! ### Media extractor (`handle_media_message`, lines 125-175) -/

/-- One comparison step of Rust `Iterator::max_by_key`: keep the running
maximum, replacing it when the new key is at least as large (so on a tie the
later element wins, as `max_by` documents). -/
def mbkStep {α : Type} (key : α → Nat) (acc : Option α) (x : α) : Option α :=
  match acc with
  | none => some x
  | some m => if key m ≤ key x then some x else some m

/-- Rust `Iterator::max_by_key` over a list: the element with the maximum key;
when several elements tie for the maximum, the last one is returned. -/
def max_by_key {α : Type} (l : List α) (key : α → Nat) : Option α :=
  l.foldl (mbkStep key) none

/-- The photo variant chosen by lines 127-131:
`photo.iter().max_by_key(|p| p.file.size)`. `none` corresponds to the
`.unwrap()` panicking on an empty variant list. -/
def selectPhotoVariant (variants : List PhotoSize) : Option PhotoSize :=
  max_by_key variants (fun p => p.file.size)

/-- The media payload of a channel post, as matched on lines 125-174. -/
inductive MediaKind where
  | photo (variants : List PhotoSize) (caption : Option String)
  | video (file : FileMeta) (file_name : Option String) (caption : Option String)
  | audio (file : FileMeta) (file_name : Option String) (caption : Option String)
  | other
deriving DecidableEq

/-- What the handler does with a media payload before the download step. -/
inductive HandlerStep where
  | panic
  | skip
  | download (file : FileMeta) (file_name : Option String) (default_ext : String)
deriving DecidableEq

/-- The dispatch of `handle_media_message` (lines 125-175): photo posts select
the `max_by_key` variant (the `.unwrap()` on an empty list is `panic`), video
and audio posts pass `caption.or(file_name)` with defaults `mp4` and `mp3`, and
any other payload is skipped. -/
def media_call_args : MediaKind → HandlerStep
  | .photo variants caption =>
      match selectPhotoVariant variants with
      | none => .panic
      | some v => .download v.file caption "jpg"
  | .video f fn caption => .download f (caption.or fn) "mp4"
  | .audio f fn caption => .download f (caption.or fn) "mp3"
  | .other => .skip

/-- The extension the pipeline saves a payload under: the resolver's extension
for the arguments `handle_media_message` passes to `download_and_save_file`. -/
def downloadedExtension (k : MediaKind) (grp : Option MediaGroupData) :
    Option String :=
  match media_call_args k with
  | .download f n e => some (get_filename_and_extension f n e grp).2
  | _ => none

/-! ### I/O skeleton of `download_and_save_file` (lines 203-224) -/

/-- The destination file's final contents (bytes as naturals). -/
structure SavedFile where
  contents : List Nat
deriving DecidableEq

/-- Oracle for the outcomes of the external calls made by
`download_and_save_file`: `bot.get_file` (returns the transfer path),
`create_dir_all`, `File::create`, `File::open` on an absolute path,
`read_to_end`, `write_all`, and `bot.download_file`. -/
structure TransferEnv where
  get_file : Except String String
  create_dir_all : Except String Unit
  create_file : Except String Unit
  open_absolute : Except String Unit
  read_to_end : Except String (List Nat)
  write_all : Except String Unit
  download_file : Except String (List Nat)

instance {ε α : Type} [DecidableEq ε] [DecidableEq α] : DecidableEq (Except ε α) :=
  fun x y =>
    match x, y with
    | .error a, .error b =>
        if h : a = b then .isTrue (by rw [h]) else .isFalse (by intro hc; cases hc; exact h rfl)
    | .ok a, .ok b =>
        if h : a = b then .isTrue (by rw [h]) else .isFalse (by intro hc; cases hc; exact h rfl)
    | .error _, .ok _ => .isFalse (by intro hc; cases hc)
    | .ok _, .error _ => .isFalse (by intro hc; cases hc)

/-- The persistence portion of `download_and_save_file` (lines 203-224):
`get_file`, directory creation and file creation failures propagate with `?`;
then, if the transfer path is absolute, the local file is opened, read, and
written to the destination, each failure propagating; otherwise
`bot.download_file` streams into the destination, and its failure is only
logged — the function returns `Ok` and the created destination file stays
empty (the spec's zero-byte file). -/
def download_and_save_file (env : TransferEnv) : Except String SavedFile :=
  match env.get_file with
  | .error e => .error e
  | .ok path =>
    match env.create_dir_all with
    | .error e => .error ("Create dir all failed: " ++ e)
    | .ok _ =>
      match env.create_file with
      | .error e => .error ("Failed to create file: " ++ e)
      | .ok _ =>
        if rustIsAbsolute path then
          match env.open_absolute with
          | .error e => .error e
          | .ok _ =>
            match env.read_to_end with
            | .error e => .error e
            | .ok buf =>
              match env.write_all with
              | .error e => .error e
              | .ok _ => .ok { contents := buf }
        else
          match env.download_file with
          | .error _ => .ok { contents := [] }
          | .ok buf => .ok { contents := buf }

/-- `handle_media_message` propagates a `download_and_save_file` error with a
context message and otherwise returns success (lines 133-172). -/
def handle_media_message_result (env : TransferEnv) : Except String SavedFile :=
  match download_and_save_file env with
  | .error e => .error ("Failed download media: " ++ e)
  | .ok f => .ok f

/-- Whether a handler outcome is an error. -/
def isErr (r : Except String SavedFile) : Bool :=
  match r with
  | .error _ => true
  | .ok _ => false

/-! ### Spec-side definitions (for refinement claims) -/

/-- The spec's body-construction rule (section 4.3 step 3), amended at the
stem source: the non-group stem source prefers the caption, else the full
filename hint (the source uses the hint verbatim, not its stem), else the
empty string. -/
def spec_body_amended (unique_id : String) (file_name_hint caption : Option String)
    (grp : Option MediaGroupData) : String :=
  let stem_source :=
    match caption with
    | some c => c
    | none => file_name_hint.getD ""
  match grp with
  | some g =>
      "title:[" ++ g.title ++ "]_" ++ unique_id ++ "\x7bpage:"
        ++ toString g.page_number ++ "\x7d"
  | none => "[" ++ stem_source ++ "]_" ++ unique_id

/-- The title rule as the claims state it: the stem of the fallback title
source when that source is present and has a non-empty stem, else the group
id itself. -/
def titleSpec (media_group_id : String) (fb : Option String) : String :=
  match fb with
  | none => media_group_id
  | some f =>
    match rustFileStem f with
    | some st => if st = "" then media_group_id else st
    | none => media_group_id

/-! ### String helper lemmas -/

theorem data_append (a b : String) : (a ++ b).data = a.data ++ b.data := rfl

theorem replaceSlashes_data (s : String) :
    (replaceSlashes s).data = s.data.map deslash := rfl

theorem map_deslash_eq_self (l : List Char) (h : '/' ∉ l) : l.map deslash = l := by
  induction l with
  | nil => rfl
  | cons a t ih =>
    have ha : a ≠ '/' := fun hh => h (List.mem_cons.mpr (Or.inl hh.symm))
    have ht : '/' ∉ t := fun hm => h (List.mem_cons_of_mem a hm)
    rw [List.map_cons, ih ht]
    have : deslash a = a := by
      unfold deslash
      rw [if_neg ha]
    rw [this]

theorem slash_not_mem_replaceSlashes (s : String) :
    '/' ∉ (replaceSlashes s).data := by
  rw [replaceSlashes_data]
  intro hmem
  rcases List.mem_map.mp hmem with ⟨c, _, heq⟩
  unfold deslash at heq
  by_cases h : c = '/'
  · rw [if_pos h] at heq
    exact absurd heq (by decide)
  · rw [if_neg h] at heq
    exact h heq

/-- The resolver body under the spec's signature, before sanitization. -/
theorem resolve_fst (uid : String) (hint caption : Option String)
    (ext : String) (grp : Option MediaGroupData) :
    (resolve uid hint caption ext grp).1
      = replaceSlashes (raw_body uid (caption.or hint) grp) := rfl

/-! ### Claim C8 -/

/-- C8: for every input, the `filename_body` returned by the resolver contains
no path-separator character: the sanitization step maps every `/` of the
constructed body to `\`, so the output is a single path segment. -/
theorem C8_no_path_separator (uid : String) (hint caption : Option String)
    (ext : String) (grp : Option MediaGroupData) :
    '/' ∉ ((resolve uid hint caption ext grp).1).data := by
  rw [resolve_fst]
  exact slash_not_mem_replaceSlashes _

/-! ### Claim C1 -/

/-- C1, counterexample: the unique ids `"/"` and `"\"` differ, every other
resolver input is equal, yet both calls return the same `filename_body`,
because sanitization maps `/` to `\`. -/
theorem C1_counterexample :
    (resolve "/" none none "jpg" none).1 = (resolve "\\" none none "jpg" none).1
      ∧ ("/" : String) ≠ "\\" := by
  constructor
  · decide
  · decide

/-- C1 (amended): for two resolver calls whose `unique_id` values differ,
neither containing a path-separator character, and whose other inputs are
equal, the returned `filename_body` values differ. -/
theorem C1_distinct_unique_id_amended (uid1 uid2 : String)
    (hint caption : Option String) (ext : String) (grp : Option MediaGroupData)
    (hne : uid1 ≠ uid2) (h1 : '/' ∉ uid1.data) (h2 : '/' ∉ uid2.data) :
    (resolve uid1 hint caption ext grp).1 ≠ (resolve uid2 hint caption ext grp).1 := by
  intro hEq
  apply hne
  rw [resolve_fst, resolve_fst] at hEq
  have hd := congrArg String.data hEq
  rw [replaceSlashes_data, replaceSlashes_data] at hd
  unfold raw_body at hd
  simp only [data_append, List.map_append, List.append_assoc] at hd
  rw [map_deslash_eq_self uid1.data h1, map_deslash_eq_self uid2.data h2] at hd
  have hd2 := List.append_cancel_left hd
  have hd3 := List.append_cancel_left hd2
  have hd4 := List.append_cancel_right hd3
  exact String.ext hd4

/-- C1 witness: the amended statement at unique ids `"a"` and `"b"`. -/
theorem C1_witness :
    ("a" : String) ≠ "b" ∧ '/' ∉ ("a" : String).data ∧ '/' ∉ ("b" : String).data
      ∧ (resolve "a" none none "jpg" none).1 ≠ (resolve "b" none none "jpg" none).1 :=
  ⟨by decide, by decide, by decide,
    C1_distinct_unique_id_amended "a" "b" none none "jpg" none
      (by decide) (by decide) (by decide)⟩

/-! ### Claim C2 -/

/-- The source's pre-sanitization body coincides with the spec's amended
body-construction formula. -/
theorem raw_eq_spec (uid : String) (hint caption : Option String)
    (grp : Option MediaGroupData) :
    raw_body uid (caption.or hint) grp = spec_body_amended uid hint caption grp := by
  have hl1 : ("[" : String).data = ['['] := rfl
  have hl2 : ("]" : String).data = [']'] := rfl
  have hl3 : ("_" : String).data = ['_'] := rfl
  have hl4 : ("]_" : String).data = [']', '_'] := rfl
  have hl5 : ("" : String).data = [] := rfl
  have hl6 : ("title:[" : String).data = ['t', 'i', 't', 'l', 'e', ':', '['] := rfl
  have hl7 : ("\x7bpage:" : String).data = ['\x7b', 'p', 'a', 'g', 'e', ':'] := rfl
  have hl8 : ("\x7d" : String).data = ['\x7d'] := rfl
  cases grp <;> cases caption <;> cases hint <;>
    (apply String.ext;
     simp [raw_body, body_pre, body_page, spec_body_amended, Option.or,
       data_append, List.append_assoc, hl1, hl2, hl3, hl4, hl5, hl6, hl7, hl8])

/-- C2, counterexample: at
`resolve(unique_id="abc123", file_name_hint="clip.mov", caption=None,
default_ext="mp4", group=None)` the body is `"[clip.mov]_abc123"` — the source
embeds the filename hint verbatim — not the claimed `"[clip]_abc123"`. -/
theorem C2_counterexample :
    (resolve "abc123" (some "clip.mov") none "mp4" none).1 = "[clip.mov]_abc123"
      ∧ ("[clip.mov]_abc123" : String) ≠ "[clip]_abc123" := by
  constructor
  · decide
  · decide

/-- C2 (amended): the resolver builds the body exactly as the amended formula
says: with group data, `"title:[" ++ title ++ "]_" ++ unique_id ++
"{page:" ++ page_number ++ "}"`; otherwise `"[" ++ stem_source ++ "]_" ++
unique_id` where `stem_source` prefers the caption, else the full filename
hint (not its stem), else the empty string — each followed by the
separator-sanitization step. Concretely the first example yields body
`"[clip.mov]_abc123"` with extension `"mov"`, and the group example yields
body `"title:[Trip]_xyz{page:3}"` with extension `"jpg"`. -/
theorem C2_body_construction_amended (uid : String) (hint caption : Option String)
    (ext : String) (grp : Option MediaGroupData) :
    (resolve uid hint caption ext grp).1
        = replaceSlashes (spec_body_amended uid hint caption grp)
      ∧ resolve "abc123" (some "clip.mov") none "mp4" none
        = ("[clip.mov]_abc123", "mov")
      ∧ resolve "xyz" none (some "Sunset") "jpg" (some ⟨3, "Trip"⟩)
        = ("title:[Trip]_xyz\x7bpage:3\x7d", "jpg") := by
  refine ⟨?_, by decide, by decide⟩
  rw [resolve_fst, raw_eq_spec]

/-! ### Claim C7 -/

/-- C7, counterexample: a video post with caption `"Sunset"` and original
filename hint `"clip.mov"` is saved with extension `"mp4"` (the default), not
the hint's extension `"mov"`: the caption preempts the hint for the extension
too, because `handle_media_message` passes `caption.or(file_name)` as the
single name argument. -/
theorem C7_counterexample :
    downloadedExtension (.video ⟨"id", "uid", 0⟩ (some "clip.mov") (some "Sunset")) none
        = some "mp4"
      ∧ rustExtension "clip.mov" = some "mov"
      ∧ ("mp4" : String) ≠ "mov" := by
  refine ⟨by decide, by decide, by decide⟩

/-- C7 (amended): for a video or audio post the saved extension is derived
from the caption when one is present — the caption's path extension if it has
one, else the default (`mp4` for video, `mp3` for audio) — and only when no
caption is present from the original filename hint (its path extension if
present, else the default). -/
theorem C7_extension_amended (f : FileMeta) (fn cap : Option String)
    (grp : Option MediaGroupData) :
    (∀ c, cap = some c →
      downloadedExtension (.video f fn cap) grp = some ((rustExtension c).getD "mp4")
        ∧ downloadedExtension (.audio f fn cap) grp = some ((rustExtension c).getD "mp3"))
    ∧ (cap = none →
      downloadedExtension (.video f fn cap) grp = some ((fn.bind rustExtension).getD "mp4")
        ∧ downloadedExtension (.audio f fn cap) grp = some ((fn.bind rustExtension).getD "mp3")) := by
  constructor
  · intro c hc
    subst hc
    constructor
    · rfl
    · rfl
  · intro hc
    subst hc
    constructor
    · rfl
    · rfl

/-- C7 witness: with a caption present and an extensionless caption the
default wins even though the hint has an extension; with no caption the
hint's extension wins. -/
theorem C7_witness :
    ((some "Sunset" : Option String) = some "Sunset")
      ∧ downloadedExtension
          (.video ⟨"i", "u", 0⟩ (some "clip.mov") (some "Sunset")) none = some "mp4"
      ∧ ((none : Option String) = none)
      ∧ downloadedExtension
          (.audio ⟨"i", "u", 0⟩ (some "clip.mov") none) none = some "mov" := by
  refine ⟨rfl, ?_, rfl, ?_⟩
  · have h := (C7_extension_amended ⟨"i", "u", 0⟩ (some "clip.mov") (some "Sunset") none).1
      "Sunset" rfl
    rw [h.1]
    decide
  · have h := (C7_extension_amended ⟨"i", "u", 0⟩ (some "clip.mov") none none).2 rfl
    rw [h.2]
    decide

/-! ### max_by_key lemmas -/

theorem mbkStep_none {α : Type} (key : α → Nat) (x : α) :
    mbkStep key none x = some x := rfl

theorem mbkStep_some {α : Type} (key : α → Nat) (m x : α) :
    mbkStep key (some m) x = if key m ≤ key x then some x else some m := rfl

theorem foldl_mbkStep_some {α : Type} (key : α → Nat) :
    ∀ (l : List α) (m : α), ∃ r, List.foldl (mbkStep key) (some m) l = some r := by
  intro l
  induction l with
  | nil => intro m; exact ⟨m, rfl⟩
  | cons b t ih =>
    intro m
    rw [List.foldl_cons, mbkStep_some]
    by_cases h : key m ≤ key b
    · rw [if_pos h]
      exact ih _
    · rw [if_neg h]
      exact ih _

theorem max_by_key_isSome {α : Type} (key : α → Nat) (l : List α) (h : l ≠ []) :
    ∃ x, max_by_key l key = some x := by
  cases l with
  | nil => exact absurd rfl h
  | cons b t =>
    show ∃ x, List.foldl (mbkStep key) (mbkStep key none b) t = some x
    exact foldl_mbkStep_some key t b

/-- `max_by_key` returns the last element attaining the maximum key: the list
splits around the result, everything before it has key at most the result's
key, and everything after it has key strictly below. -/
theorem max_by_key_spec {α : Type} (key : α → Nat) (l : List α) :
    ∀ x, max_by_key l key = some x →
      ∃ l1 l2, l = l1 ++ x :: l2 ∧ (∀ y ∈ l1, key y ≤ key x)
        ∧ (∀ y ∈ l2, key y < key x) := by
  induction l using List.reverseRecOn with
  | nil => intro x hx; exact absurd hx (by simp [max_by_key])
  | append_singleton l a ih =>
    intro x hx
    have hsplit : max_by_key (l ++ [a]) key = mbkStep key (max_by_key l key) a := by
      unfold max_by_key
      rw [List.foldl_append]
      rfl
    rw [hsplit] at hx
    cases hm : max_by_key l key with
    | none =>
      rw [hm, mbkStep_none] at hx
      have hxa : x = a := (Option.some.inj hx).symm
      subst hxa
      have hlnil : l = [] := by
        by_contra hne
        obtain ⟨y, hy⟩ := max_by_key_isSome key l hne
        rw [hy] at hm
        exact Option.noConfusion hm
      subst hlnil
      refine ⟨[], [], rfl, ?_, ?_⟩
      · intro y hy
        cases hy
      · intro y hy
        cases hy
    | some m =>
      rw [hm, mbkStep_some] at hx
      obtain ⟨l1, l2, hdec, hle, hlt⟩ := ih m hm
      by_cases hcmp : key m ≤ key a
      · have hxa : x = a := by
          rw [if_pos hcmp] at hx
          exact (Option.some.inj hx).symm
        subst hxa
        refine ⟨l, [], rfl, ?_, by intro y hy; cases hy⟩
        intro y hy
        rw [hdec] at hy
        rcases List.mem_append.mp hy with h1 | h2
        · exact le_trans (hle y h1) hcmp
        · rcases List.mem_cons.mp h2 with h3 | h4
          · rw [h3]; exact hcmp
          · exact le_trans (le_of_lt (hlt y h4)) hcmp
      · have hxm : x = m := by
          rw [if_neg hcmp] at hx
          exact (Option.some.inj hx).symm
        subst hxm
        refine ⟨l1, l2 ++ [a], ?_, hle, ?_⟩
        · rw [hdec]
          simp
        · intro y hy
          rcases List.mem_append.mp hy with h1 | h2
          · exact hlt y h1
          · rcases List.mem_cons.mp h2 with h3 | h4
            · rw [h3]; exact Nat.lt_of_not_le hcmp
            · cases h4

/-! ### Claim C5 -/

/-- C5, counterexample: two photo variants tie at size 5; the extractor
selects the second (the last maximum encountered), not the first as the claim
states. -/
theorem C5_counterexample :
    selectPhotoVariant [⟨⟨"a", "ua", 5⟩⟩, ⟨⟨"b", "ub", 5⟩⟩] = some ⟨⟨"b", "ub", 5⟩⟩
      ∧ (⟨⟨"b", "ub", 5⟩⟩ : PhotoSize) ≠ ⟨⟨"a", "ua", 5⟩⟩ := by
  constructor
  · decide
  · decide

/-- C5 (amended): for every nonempty variant list the extractor selects a
variant of maximum byte size, and when several variants tie for the maximum
the last maximum encountered in iteration order is selected (everything after
the selected variant is strictly smaller); variants of sizes
`[100, 500, 300]` yield the 500-byte variant. -/
theorem C5_max_selection_amended :
    (∀ (l : List PhotoSize), l ≠ [] →
      ∃ (x : PhotoSize) (l1 l2 : List PhotoSize),
        selectPhotoVariant l = some x ∧ l = l1 ++ x :: l2
          ∧ (∀ y ∈ l1, y.file.size ≤ x.file.size)
          ∧ (∀ y ∈ l2, y.file.size < x.file.size))
    ∧ selectPhotoVariant
        [⟨⟨"a", "ua", 100⟩⟩, ⟨⟨"b", "ub", 500⟩⟩, ⟨⟨"c", "uc", 300⟩⟩]
      = some ⟨⟨"b", "ub", 500⟩⟩ := by
  constructor
  · intro l hl
    obtain ⟨x, hx⟩ := max_by_key_isSome (fun p => p.file.size) l hl
    obtain ⟨l1, l2, h1, h2, h3⟩ := max_by_key_spec (fun p => p.file.size) l x hx
    exact ⟨x, l1, l2, hx, h1, h2, h3⟩
  · decide

/-- C5 witness: the selection part of the amended claim applied to a concrete
two-variant list. -/
theorem C5_witness :
    ([⟨⟨"a", "ua", 100⟩⟩, ⟨⟨"b", "ub", 500⟩⟩] : List PhotoSize) ≠ []
      ∧ (selectPhotoVariant [⟨⟨"a", "ua", 100⟩⟩, ⟨⟨"b", "ub", 500⟩⟩]).isSome = true := by
  constructor
  · decide
  · obtain ⟨x, l1, l2, hx, _⟩ :=
      C5_max_selection_amended.1 [⟨⟨"a", "ua", 100⟩⟩, ⟨⟨"b", "ub", 500⟩⟩] (by decide)
    rw [hx]
    rfl

/-! ### Claim C9 -/

/-- C9: the photo-selection step is partial: with at least one variant the
`unwrap` of the maximum cannot panic and the handler proceeds to download the
selected variant, while for an empty variant list `handle_media_message`
panics (the `.unwrap()` on line 131) rather than returning an error or
skipping. -/
theorem C9_photo_selection_partial :
    (∀ (variants : List PhotoSize) (caption : Option String), variants ≠ [] →
      ∃ v, selectPhotoVariant variants = some v
        ∧ media_call_args (.photo variants caption) = .download v.file caption "jpg")
    ∧ (∀ caption, media_call_args (.photo [] caption) = .panic) := by
  constructor
  · intro vs cap h
    obtain ⟨v, hv⟩ := max_by_key_isSome (fun p => p.file.size) vs h
    refine ⟨v, hv, ?_⟩
    have hsel : selectPhotoVariant vs = some v := hv
    simp only [media_call_args, hsel]
  · intro cap
    rfl

/-- C9 witness: a one-variant photo post does not hit the panic branch, and
the empty-variant post does. -/
theorem C9_witness :
    ([⟨⟨"a", "ua", 1⟩⟩] : List PhotoSize) ≠ []
      ∧ media_call_args (.photo [⟨⟨"a", "ua", 1⟩⟩] none) ≠ .panic
      ∧ media_call_args (.photo [] none) = .panic := by
  refine ⟨by decide, ?_, ?_⟩
  · obtain ⟨v, _, harg⟩ :=
      C9_photo_selection_partial.1 [⟨⟨"a", "ua", 1⟩⟩] none (by decide)
    rw [harg]
    intro hc
    exact HandlerStep.noConfusion hc
  · exact C9_photo_selection_partial.2 none

/-! ### Sequencer lemmas -/

theorem u32Mod_pos : 0 < u32Mod := by norm_num [u32Mod]

theorem one_lt_u32Mod : 1 < u32Mod := by norm_num [u32Mod]

theorem advance_of_some (m : GroupMap) (gid : String) (fb : Option String)
    (e : MediaGroupData) (h : m gid = some e) :
    advance m gid fb
      = ({ page_number := (e.page_number + 1) % u32Mod, title := e.title },
         fun k => if k = gid then
           some { page_number := (e.page_number + 1) % u32Mod, title := e.title }
         else m k) := by
  unfold advance
  rw [h]
  rfl

theorem advance_of_none (m : GroupMap) (gid : String) (fb : Option String)
    (h : m gid = none) :
    advance m gid fb
      = ({ page_number := 1, title := titleOf gid fb },
         fun k => if k = gid then
           some { page_number := 1, title := titleOf gid fb }
         else m k) := by
  unfold advance
  rw [h]
  have h1 : (0 + 1) % u32Mod = 1 := Nat.mod_eq_of_lt one_lt_u32Mod
  simp only [Option.getD_none, h1]

theorem advanceList_of_some (gid : String) :
    ∀ (fbs : List (Option String)) (m : GroupMap) (e : MediaGroupData),
      m gid = some e → e.page_number < u32Mod →
      (advanceList m gid fbs).1
          = (List.range fbs.length).map (fun k => (e.page_number + 1 + k) % u32Mod)
        ∧ (advanceList m gid fbs).2 gid
          = some { page_number := (e.page_number + fbs.length) % u32Mod,
                   title := e.title } := by
  intro fbs
  induction fbs with
  | nil =>
    intro m e h hlt
    refine ⟨rfl, ?_⟩
    show m gid
        = some { page_number := (e.page_number + List.length ([] : List (Option String))) % u32Mod,
                 title := e.title }
    rw [h]
    have h0 : (e.page_number + List.length ([] : List (Option String))) % u32Mod
        = e.page_number := by
      simp only [List.length_nil, Nat.add_zero]
      exact Nat.mod_eq_of_lt hlt
    rw [h0]
  | cons fb rest ih =>
    intro m e h hlt
    have hadv := advance_of_some m gid fb e h
    have hm2 : (advance m gid fb).2 gid
        = some { page_number := (e.page_number + 1) % u32Mod, title := e.title } := by
      rw [hadv]
      simp
    have hlt2 : ((e.page_number + 1) % u32Mod) < u32Mod := Nat.mod_lt _ u32Mod_pos
    obtain ⟨hres, hmap⟩ := ih (advance m gid fb).2
      { page_number := (e.page_number + 1) % u32Mod, title := e.title } hm2 hlt2
    constructor
    · show (advance m gid fb).1.page_number :: (advanceList (advance m gid fb).2 gid rest).1 = _
      rw [hres, hadv]
      rw [List.length_cons, List.range_succ_eq_map, List.map_cons, List.map_map]
      congr 1
      apply List.map_congr_left
      intro k _
      show ((e.page_number + 1) % u32Mod + 1 + k) % u32Mod
          = (e.page_number + 1 + (k + 1)) % u32Mod
      rw [Nat.add_assoc]
      rw [Nat.mod_add_mod]
      congr 1
      omega
    · show (advanceList (advance m gid fb).2 gid rest).2 gid = _
      rw [hmap]
      congr 1
      congr 1
      show ((e.page_number + 1) % u32Mod + rest.length) % u32Mod
          = (e.page_number + (rest.length + 1)) % u32Mod
      rw [Nat.mod_add_mod]
      congr 1
      omega

theorem advanceList_results (m : GroupMap) (gid : String)
    (fbs : List (Option String)) (h : m gid = none) :
    (advanceList m gid fbs).1
      = (List.range fbs.length).map (fun k => (k + 1) % u32Mod) := by
  cases fbs with
  | nil => rfl
  | cons fb rest =>
    have hadv := advance_of_none m gid fb h
    have hm2 : (advance m gid fb).2 gid
        = some { page_number := 1, title := titleOf gid fb } := by
      rw [hadv]
      simp
    obtain ⟨hres, _⟩ := advanceList_of_some gid rest (advance m gid fb).2
      { page_number := 1, title := titleOf gid fb } hm2 one_lt_u32Mod
    show (advance m gid fb).1.page_number :: (advanceList (advance m gid fb).2 gid rest).1 = _
    rw [hres, hadv]
    rw [List.length_cons, List.range_succ_eq_map, List.map_cons, List.map_map]
    congr 1
    apply List.map_congr_left
    intro k _
    show (1 + 1 + k) % u32Mod = (k + 1 + 1) % u32Mod
    congr 1
    omega

/-! ### Claim C3 -/

/-- C3, counterexample: the page counter is a `u32`; at the call number
`2^32` for one group id the post-increment value wraps to `0`, so the
sequence of returned values for `N = 2^32` calls is not `1..N`. -/
theorem C3_counterexample :
    ¬ ((advanceList emptyGroupMap "g" (List.replicate u32Mod none)).1
        = (List.range (List.replicate u32Mod (none : Option String)).length).map
            (fun k => k + 1)) := by
  intro hEq
  rw [advanceList_results emptyGroupMap "g" (List.replicate u32Mod none) rfl] at hEq
  have hlen : (List.replicate u32Mod (none : Option String)).length = u32Mod :=
    List.length_replicate _ _
  rw [hlen] at hEq
  have hub : u32Mod - 1 < u32Mod := by
    have := u32Mod_pos
    omega
  have h1 := congrArg (fun l => l.get? (u32Mod - 1)) hEq
  simp only [List.get?_map, List.get?_range hub, Option.map_some'] at h1
  have h2 : (u32Mod - 1 + 1) % u32Mod = u32Mod - 1 + 1 := Option.some.inj h1
  have h3 : u32Mod - 1 + 1 = u32Mod := by
    have := u32Mod_pos
    omega
  rw [h3, Nat.mod_self] at h2
  exact absurd h2.symm (by norm_num [u32Mod])

/-- C3 (amended): for every group id unseen by the registry, a sequence of
`N` advance calls with `N < 2^32` (the counter is a `u32` and wraps at
`2^32`) returns exactly the integers `1` through `N` in order — the first
call creates the entry with page number 0 and each call increments and
returns the post-increment value, so the results are strictly monotonic with
no gaps and no reuse. -/
theorem C3_sequencer_amended (m : GroupMap) (gid : String)
    (fbs : List (Option String)) (h : m gid = none) (hN : fbs.length < u32Mod) :
    (advanceList m gid fbs).1 = (List.range fbs.length).map (fun k => k + 1) := by
  rw [advanceList_results m gid fbs h]
  apply List.map_congr_left
  intro k hk
  rw [List.mem_range] at hk
  exact Nat.mod_eq_of_lt (by omega)

/-- C3 witness: three calls for a fresh group id return `[1, 2, 3]`. -/
theorem C3_witness :
    emptyGroupMap "g" = none
      ∧ ([none, none, none] : List (Option String)).length < u32Mod
      ∧ (advanceList emptyGroupMap "g" [none, none, none]).1
        = (List.range 3).map (fun k => k + 1) :=
  ⟨rfl, by norm_num [u32Mod],
    C3_sequencer_amended emptyGroupMap "g" [none, none, none] rfl
      (by norm_num [u32Mod])⟩

/-! ### Title lemmas -/

theorem pathSegments_ne_empty (s : String) (n : String)
    (h : n ∈ pathSegments s) : n ≠ "" := by
  unfold pathSegments at h
  have hp := (List.mem_filter.mp h).2
  simp only [Bool.and_eq_true, bne_iff_ne] at hp
  exact hp.1

theorem rustFileName_ne_empty (s n : String) (h : rustFileName s = some n) :
    n ≠ "" := by
  unfold rustFileName at h
  split at h
  · exact Option.noConfusion h
  · rename_i l heq
    split at h
    · exact Option.noConfusion h
    · have hln : l = n := Option.some.inj h
      subst hln
      exact pathSegments_ne_empty s l (List.mem_of_mem_getLast? (Option.mem_def.mpr heq))

theorem stemOfFileName_ne_empty (n : String) (h : n ≠ "") :
    stemOfFileName n ≠ "" := by
  unfold stemOfFileName splitAtLastDot
  by_cases hdd : n = ".."
  · rw [if_pos hdd]
    rw [hdd]
    decide
  · rw [if_neg hdd]
    split
    · rename_i i heq
      split
      · rename_i hi
        show (⟨n.data.take i⟩ : String) ≠ ""
        intro hc
        have hdata : n.data.take i = [] := congrArg String.data hc
        rcases List.take_eq_nil_iff.mp hdata with h0 | h0
        · omega
        · exact h (String.ext h0)
      · exact h
    · exact h

theorem rustFileStem_ne_empty (s st : String) (h : rustFileStem s = some st) :
    st ≠ "" := by
  unfold rustFileStem at h
  cases hn : rustFileName s with
  | none => rw [hn] at h; exact Option.noConfusion h
  | some n =>
    rw [hn] at h
    have : stemOfFileName n = st := Option.some.inj h
    rw [← this]
    exact stemOfFileName_ne_empty n (rustFileName_ne_empty s n hn)

theorem titleOf_eq_titleSpec (gid : String) (fb : Option String) :
    titleOf gid fb = titleSpec gid fb := by
  cases fb with
  | none => rfl
  | some f =>
    show (rustFileStem f).getD gid
        = match rustFileStem f with
          | some st => if st = "" then gid else st
          | none => gid
    cases hst : rustFileStem f with
    | none => rfl
    | some st =>
      have hne := rustFileStem_ne_empty f st hst
      show st = if st = "" then gid else st
      rw [if_neg hne]

theorem advance_preserves_title (m : GroupMap) (g2 : String) (fb : Option String)
    (k : String) (e : MediaGroupData) (h : m k = some e) :
    ∃ e2, (advance m g2 fb).2 k = some e2 ∧ e2.title = e.title := by
  by_cases hk : k = g2
  · subst hk
    rw [advance_of_some m k fb e h]
    refine ⟨{ page_number := (e.page_number + 1) % u32Mod, title := e.title }, ?_, rfl⟩
    simp
  · unfold advance
    refine ⟨e, ?_, rfl⟩
    simp only [if_neg hk]
    exact h

theorem advanceCalls_preserves_title (k : String) :
    ∀ (calls : List (String × Option String)) (m : GroupMap) (e : MediaGroupData),
      m k = some e →
      ∃ e2, advanceCalls m calls k = some e2 ∧ e2.title = e.title := by
  intro calls
  induction calls with
  | nil => intro m e h; exact ⟨e, h, rfl⟩
  | cons c rest ih =>
    intro m e h
    obtain ⟨e1, h1, ht1⟩ := advance_preserves_title m c.1 c.2 k e h
    obtain ⟨e2, h2, ht2⟩ := ih (advance m c.1 c.2).2 e1 h1
    exact ⟨e2, h2, ht2.trans ht1⟩

theorem advance_returns_stored_title (m : GroupMap) (gid : String)
    (fb : Option String) (e : MediaGroupData) (h : m gid = some e) :
    (advance m gid fb).1.title = e.title := by
  rw [advance_of_some m gid fb e h]

/-! ### Claim C4 -/

/-- C4: for every group id unseen by the registry, the title is fixed by the
first advance call — the stem of the fallback title source when that source
is present and has a non-empty stem, else the group id itself — and every
later advance call for that group id (after any interleaved calls for any
group ids, with any fallback values) returns this same title unchanged. -/
theorem C4_title_fixed (m0 : GroupMap) (gid : String) (fb0 : Option String)
    (h : m0 gid = none) (calls : List (String × Option String)) (fb : Option String) :
    (advance m0 gid fb0).1.title = titleSpec gid fb0
      ∧ (advance (advanceCalls (advance m0 gid fb0).2 calls) gid fb).1.title
        = titleSpec gid fb0 := by
  have hadv := advance_of_none m0 gid fb0 h
  have hfirst : (advance m0 gid fb0).1.title = titleOf gid fb0 := by
    rw [hadv]
  have hm1 : (advance m0 gid fb0).2 gid
      = some { page_number := 1, title := titleOf gid fb0 } := by
    rw [hadv]
    simp
  refine ⟨hfirst.trans (titleOf_eq_titleSpec gid fb0), ?_⟩
  obtain ⟨e2, h2, ht2⟩ := advanceCalls_preserves_title gid calls
    (advance m0 gid fb0).2 { page_number := 1, title := titleOf gid fb0 } hm1
  rw [advance_returns_stored_title _ gid fb e2 h2, ht2]
  exact titleOf_eq_titleSpec gid fb0

/-- C4 witness: a fresh group id with fallback `"vacation.mp4"` gets title
`"vacation"`, which a later call with a different fallback still returns;
with an empty fallback the title is the group id. -/
theorem C4_witness :
    emptyGroupMap "g" = none
      ∧ (advance emptyGroupMap "g" (some "vacation.mp4")).1.title = "vacation"
      ∧ (advance (advanceCalls (advance emptyGroupMap "g" (some "vacation.mp4")).2
            [("g", some "other.txt"), ("h", none)]) "g" none).1.title = "vacation"
      ∧ (advance emptyGroupMap "g" (some "")).1.title = "g" := by
  refine ⟨rfl, ?_, ?_, ?_⟩
  · have h := (C4_title_fixed emptyGroupMap "g" (some "vacation.mp4") rfl [] none).1
    rw [h]
    decide
  · have h := (C4_title_fixed emptyGroupMap "g" (some "vacation.mp4") rfl
      [("g", some "other.txt"), ("h", none)] none).2
    rw [h]
    decide
  · have h := (C4_title_fixed emptyGroupMap "g" (some "") rfl [] none).1
    rw [h]
    decide

/-! ### Claim C6 -/

/-- C6: for every handled media message, a failure to create the destination
directory (`envA`) or the destination file (`envB`) is propagated as an error
from the handler, whereas a failure purely in the network byte-transfer step
(`envC`, on a non-absolute transfer path) is logged and swallowed: the
handler returns success and the already-created destination file remains with
zero bytes. -/
theorem C6_error_asymmetry (envA envB envC : TransferEnv)
    (pA pB pC eA eB eC : String)
    (hA1 : envA.get_file = .ok pA) (hA2 : envA.create_dir_all = .error eA)
    (hB1 : envB.get_file = .ok pB) (hB2 : envB.create_dir_all = .ok ())
    (hB3 : envB.create_file = .error eB)
    (hC1 : envC.get_file = .ok pC) (hC2 : envC.create_dir_all = .ok ())
    (hC3 : envC.create_file = .ok ()) (hC4 : rustIsAbsolute pC = false)
    (hC5 : envC.download_file = .error eC) :
    isErr (handle_media_message_result envA) = true
      ∧ isErr (handle_media_message_result envB) = true
      ∧ handle_media_message_result envC = .ok { contents := [] } := by
  refine ⟨?_, ?_, ?_⟩
  · simp [handle_media_message_result, download_and_save_file, isErr, hA1, hA2]
  · simp [handle_media_message_result, download_and_save_file, isErr, hB1, hB2, hB3]
  · simp [handle_media_message_result, download_and_save_file, hC1, hC2, hC3, hC4, hC5]

/-- C6 witness: three concrete oracle environments — directory creation
failing, file creation failing, and only the network transfer failing. -/
theorem C6_witness :
    isErr (handle_media_message_result
        ⟨.ok "p", .error "boom", .ok (), .ok (), .ok [], .ok (), .ok []⟩) = true
      ∧ isErr (handle_media_message_result
        ⟨.ok "p", .ok (), .error "boom", .ok (), .ok [], .ok (), .ok []⟩) = true
      ∧ handle_media_message_result
        ⟨.ok "p", .ok (), .ok (), .ok (), .ok [], .ok (), .error "net"⟩
          = .ok { contents := [] } :=
  C6_error_asymmetry
    ⟨.ok "p", .error "boom", .ok (), .ok (), .ok [], .ok (), .ok []⟩
    ⟨.ok "p", .ok (), .error "boom", .ok (), .ok [], .ok (), .ok []⟩
    ⟨.ok "p", .ok (), .ok (), .ok (), .ok [], .ok (), .error "net"⟩
    "p" "p" "p" "boom" "boom" "net"
    rfl rfl rfl rfl rfl rfl rfl rfl rfl rfl

/-! ### Claim C10 -/

/-- C10: when the resolved transfer path is absolute the handler takes the
local-read branch: a failure opening the local file (`envD`), reading it
(`envE`), or writing the bytes to the destination (`envF`) is propagated as
an error from the handler; when all local operations succeed (`envG`) the
handler succeeds with the locally read bytes — the network transfer outcome
is irrelevant on this branch, unlike the network branch whose failure is
swallowed. -/
theorem C10_local_branch_errors (envD envE envF envG : TransferEnv)
    (pD pE pF pG eD eE eF : String) (bufF bufG netG : List Nat)
    (hD1 : envD.get_file = .ok pD) (hD2 : rustIsAbsolute pD = true)
    (hD3 : envD.create_dir_all = .ok ()) (hD4 : envD.create_file = .ok ())
    (hD5 : envD.open_absolute = .error eD)
    (hE1 : envE.get_file = .ok pE) (hE2 : rustIsAbsolute pE = true)
    (hE3 : envE.create_dir_all = .ok ()) (hE4 : envE.create_file = .ok ())
    (hE5 : envE.open_absolute = .ok ()) (hE6 : envE.read_to_end = .error eE)
    (hF1 : envF.get_file = .ok pF) (hF2 : rustIsAbsolute pF = true)
    (hF3 : envF.create_dir_all = .ok ()) (hF4 : envF.create_file = .ok ())
    (hF5 : envF.open_absolute = .ok ()) (hF6 : envF.read_to_end = .ok bufF)
    (hF7 : envF.write_all = .error eF)
    (hG1 : envG.get_file = .ok pG) (hG2 : rustIsAbsolute pG = true)
    (hG3 : envG.create_dir_all = .ok ()) (hG4 : envG.create_file = .ok ())
    (hG5 : envG.open_absolute = .ok ()) (hG6 : envG.read_to_end = .ok bufG)
    (hG7 : envG.write_all = .ok ()) (hG8 : envG.download_file = .ok netG) :
    isErr (handle_media_message_result envD) = true
      ∧ isErr (handle_media_message_result envE) = true
      ∧ isErr (handle_media_message_result envF) = true
      ∧ handle_media_message_result envG = .ok { contents := bufG } := by
  refine ⟨?_, ?_, ?_, ?_⟩
  · simp [handle_media_message_result, download_and_save_file, isErr,
      hD1, hD2, hD3, hD4, hD5]
  · simp [handle_media_message_result, download_and_save_file, isErr,
      hE1, hE2, hE3, hE4, hE5, hE6]
  · simp [handle_media_message_result, download_and_save_file, isErr,
      hF1, hF2, hF3, hF4, hF5, hF6, hF7]
  · simp [handle_media_message_result, download_and_save_file,
      hG1, hG2, hG3, hG4, hG5, hG6, hG7]

/-- C10 witness: concrete environments on the absolute path `"/srv/f"`; with
all local operations succeeding the result is the locally read bytes
`[7, 8]`, not the network transfer's `[9]`. -/
theorem C10_witness :
    isErr (handle_media_message_result
        ⟨.ok "/srv/f", .ok (), .ok (), .error "open", .ok [], .ok (), .ok []⟩) = true
      ∧ isErr (handle_media_message_result
        ⟨.ok "/srv/f", .ok (), .ok (), .ok (), .error "read", .ok (), .ok []⟩) = true
      ∧ isErr (handle_media_message_result
        ⟨.ok "/srv/f", .ok (), .ok (), .ok (), .ok [7, 8], .error "write", .ok []⟩) = true
      ∧ handle_media_message_result
        ⟨.ok "/srv/f", .ok (), .ok (), .ok (), .ok [7, 8], .ok (), .ok [9]⟩
          = .ok { contents := [7, 8] } :=
  C10_local_branch_errors
    ⟨.ok "/srv/f", .ok (), .ok (), .error "open", .ok [], .ok (), .ok []⟩
    ⟨.ok "/srv/f", .ok (), .ok (), .ok (), .error "read", .ok (), .ok []⟩
    ⟨.ok "/srv/f", .ok (), .ok (), .ok (), .ok [7, 8], .error "write", .ok []⟩
    ⟨.ok "/srv/f", .ok (), .ok (), .ok (), .ok [7, 8], .ok (), .ok [9]⟩
    "/srv/f" "/srv/f" "/srv/f" "/srv/f" "open" "read" "write" [7, 8] [7, 8] [9]
    rfl rfl rfl rfl rfl rfl rfl rfl rfl rfl rfl rfl rfl rfl rfl rfl rfl rfl
    rfl rfl rfl rfl rfl rfl rfl rfl

end TgBot
